import Mathlib

/-!
# CH224A USB-PD controller driver: register channel

Shallow embedding of `src/CH224A.h` and `src/CH224A.cpp`.

The driver talks to two collaborators that it does not implement: the two-wire
bus object (`TwoWire`) and the blocking `delay`.  The bus is a record of
transition functions over an arbitrary bus state; every call the driver makes
on either collaborator is appended to a call log, so that the order and the
arguments of the calls can be stated.

Integers: `uint8_t` and `uint16_t` values are natural numbers; where the source
narrows a value (`reg + 1` passed as a `uint8_t`, the `& 0xFF` masks, the store
of `read()` into a `uint8_t`) the embedding reduces modulo `2 ^ 8`.  The values
the bus returns as `uint8_t` (`endTransmission`, `requestFrom`) are only
compared with a constant, and are typed `Fin 256`.
-/

/-- One call of the driver on a collaborator: the five bus primitives and the
timing primitive. -/
inductive Call where
  | beginTransmission (address : Nat)
  | write (data : Nat)
  | endTransmission (sendStop : Bool)
  | requestFrom (address : Nat) (quantity : Nat)
  | read
  | delay (ms : Nat)
  deriving DecidableEq, Repr

/-- The bus object the driver is bound to (`TwoWire` of `Wire.h`), over a bus
state `σ`: `beginTransmission(address)`, `write(data)`,
`endTransmission(sendStop)` with its completion code, `requestFrom(address,
quantity)` with the number of bytes received, and `read()`, an `int` that is
the next received byte or a negative value. -/
structure TwoWire (σ : Type) where
  beginTransmission : σ → Nat → σ
  write : σ → Nat → σ
  endTransmission : σ → Bool → σ × Fin 256
  requestFrom : σ → Nat → Nat → σ × Fin 256
  read : σ → σ × Int

/-- What the driver acts on: the state of the bus and the log of the calls made
so far, oldest first. -/
structure World (σ : Type) where
  bus : σ
  calls : List Call

namespace World

variable {σ : Type}

/-- Call `beginTransmission(address)` on the bus. -/
def beginTransmission (w : World σ) (port : TwoWire σ) (address : Nat) : World σ :=
  { bus := port.beginTransmission w.bus address,
    calls := w.calls ++ [Call.beginTransmission address] }

/-- Call `write(data)` on the bus; the returned count is not used by the driver. -/
def write (w : World σ) (port : TwoWire σ) (data : Nat) : World σ :=
  { bus := port.write w.bus data,
    calls := w.calls ++ [Call.write data] }

/-- Call `endTransmission(sendStop)` on the bus and return its completion code. -/
def endTransmission (w : World σ) (port : TwoWire σ) (sendStop : Bool) : Fin 256 × World σ :=
  ((port.endTransmission w.bus sendStop).2,
   { bus := (port.endTransmission w.bus sendStop).1,
     calls := w.calls ++ [Call.endTransmission sendStop] })

/-- Call `requestFrom(address, quantity)` on the bus and return the byte count. -/
def requestFrom (w : World σ) (port : TwoWire σ) (address quantity : Nat) :
    Fin 256 × World σ :=
  ((port.requestFrom w.bus address quantity).2,
   { bus := (port.requestFrom w.bus address quantity).1,
     calls := w.calls ++ [Call.requestFrom address quantity] })

/-- Call `read()` on the bus and return its `int` result. -/
def read (w : World σ) (port : TwoWire σ) : Int × World σ :=
  ((port.read w.bus).2,
   { bus := (port.read w.bus).1,
     calls := w.calls ++ [Call.read] })

/-- Call `delay(ms)`: the call is logged, the bus is not touched. -/
def delay (w : World σ) (ms : Nat) : World σ :=
  { w with calls := w.calls ++ [Call.delay ms] }

end World

/-- Default bus address (`CH224A.h`). -/
def CH224A_I2C_ADDR_DEFAULT : Nat := 0x22
/-- Alternate bus address. -/
def CH224A_I2C_ADDR_ALT : Nat := 0x23

/-- Status register. -/
def CH224A_REG_I2C_STATUS : Nat := 0x09
/-- Voltage control register. -/
def CH224A_REG_VOLTAGE_CTRL : Nat := 0x0A
/-- Current data register. -/
def CH224A_REG_CURRENT_DATA : Nat := 0x50
/-- AVS voltage register, low byte. -/
def CH224A_REG_AVS_VOLTAGE_L : Nat := 0x51
/-- AVS voltage register, high byte. -/
def CH224A_REG_AVS_VOLTAGE_H : Nat := 0x52
/-- PPS voltage register. -/
def CH224A_REG_PPS_VOLTAGE : Nat := 0x53
/-- First register of the PD data block. -/
def CH224A_REG_PD_DATA_START : Nat := 0x60
/-- Last register of the PD data block. -/
def CH224A_REG_PD_DATA_END : Nat := 0x8F

/-- Voltage modes (`enum CH224A_VoltageMode`). -/
inductive CH224A_VoltageMode where
  | CH224A_VOLTAGE_5V
  | CH224A_VOLTAGE_9V
  | CH224A_VOLTAGE_12V
  | CH224A_VOLTAGE_15V
  | CH224A_VOLTAGE_20V
  | CH224A_VOLTAGE_28V
  | CH224A_VOLTAGE_PPS
  | CH224A_VOLTAGE_AVS
  deriving DecidableEq, Repr

namespace CH224A_VoltageMode

/-- Enumerator values, as used by the cast `(uint8_t)mode`. -/
def toUInt8 : CH224A_VoltageMode → Nat
  | CH224A_VOLTAGE_5V => 0
  | CH224A_VOLTAGE_9V => 1
  | CH224A_VOLTAGE_12V => 2
  | CH224A_VOLTAGE_15V => 3
  | CH224A_VOLTAGE_20V => 4
  | CH224A_VOLTAGE_28V => 5
  | CH224A_VOLTAGE_PPS => 6
  | CH224A_VOLTAGE_AVS => 7

end CH224A_VoltageMode

/-- Conversion of a floating value to an unsigned integer of `bits` bits, as in
`(uint8_t)x` and `(uint16_t)x`: the fractional part is discarded (rounding
toward zero), and an integer that fits the target type is the result.  For an
integer that does not fit, the language leaves the result undefined; the model
follows the compiled code, which converts to a 32-bit `int` and stores its low
`bits` bits, the conversion of an integer outside `int` giving `INT_MIN`. -/
def truncToUInt (bits : Nat) (x : ℚ) : Nat :=
  let t := Int.tdiv x.num x.den
  let i : Int := if -2147483648 ≤ t ∧ t ≤ 2147483647 then t else -2147483648
  (i % (2 : Int) ^ bits).toNat

/-- The device handle (`class CH224A`): the bus address and the bound bus, if
any (`_i2cPort == nullptr` is `none`). -/
structure CH224A (σ : Type) where
  _i2cAddress : Nat
  _i2cPort : Option (TwoWire σ)

namespace CH224A

variable {σ : Type}

/-- Constructor `CH224A::CH224A(i2cAddress)`. -/
def new (i2cAddress : Nat) : CH224A σ :=
  { _i2cAddress := i2cAddress, _i2cPort := none }

/-- Accessor `getI2CAddress`. -/
def getI2CAddress (self : CH224A σ) : Nat := self._i2cAddress

/-- Presence check `CH224A::isConnected`. -/
def isConnected (self : CH224A σ) (w : World σ) : Bool × World σ :=
  match self._i2cPort with
  | none => (false, w)
  | some port =>
    let w1 := w.beginTransmission port self._i2cAddress
    let r := w1.endTransmission port true
    (r.1 == 0, r.2)

/-- Initialisation `CH224A::begin`: binds the bus, then checks presence. -/
def begin (self : CH224A σ) (wirePort : TwoWire σ) (w : World σ) :
    Bool × CH224A σ × World σ :=
  let self1 : CH224A σ := { self with _i2cPort := some wirePort }
  let r := self1.isConnected w
  (r.1, self1, r.2)

/-- Single-byte write `CH224A::writeRegister`. -/
def writeRegister (self : CH224A σ) (reg value : Nat) (w : World σ) : Bool × World σ :=
  match self._i2cPort with
  | none => (false, w)
  | some port =>
    let w1 := w.beginTransmission port self._i2cAddress
    let w2 := w1.write port reg
    let w3 := w2.write port value
    let r := w3.endTransmission port true
    let error := r.1
    let w5 := r.2.delay 50
    (error == 0, w5)

/-- Double-byte write `CH224A::writeRegister16`, low byte first. -/
def writeRegister16 (self : CH224A σ) (reg value : Nat) (w : World σ) : Bool × World σ :=
  match self._i2cPort with
  | none => (false, w)
  | some _ =>
    let lowByte := value &&& 0xFF
    let highByte := (value >>> 8) &&& 0xFF
    let success := true
    let r1 := self.writeRegister reg lowByte w
    let success := success && r1.1
    let r2 := self.writeRegister ((reg + 1) % 256) highByte r1.2
    let success := success && r2.1
    (success, r2.2)

/-- Single-byte read `CH224A::readRegister`; `value` is the content of the
output parameter before the call, the second component of the result its
content after. -/
def readRegister (self : CH224A σ) (reg : Nat) (value : Nat) (w : World σ) :
    Bool × Nat × World σ :=
  match self._i2cPort with
  | none => (false, value, w)
  | some port =>
    let w1 := w.beginTransmission port self._i2cAddress
    let w2 := w1.write port reg
    let r := w2.endTransmission port false
    let error := r.1
    if error != 0 then
      (false, value, r.2)
    else
      let q := r.2.requestFrom port self._i2cAddress 1
      let bytesReceived := q.1
      if bytesReceived == 1 then
        let d := q.2.read port
        (true, (d.1 % 256).toNat, d.2)
      else
        (false, value, q.2)

/-- Double-byte read `CH224A::readRegister16`.  `lowByte` and `highByte` are
the contents of the two uninitialised locals, `value` the content of the output
parameter before the call. -/
def readRegister16 (self : CH224A σ) (reg : Nat) (value : Nat) (lowByte highByte : Nat)
    (w : World σ) : Bool × Nat × World σ :=
  match self._i2cPort with
  | none => (false, value, w)
  | some _ =>
    let success := true
    let r1 := self.readRegister reg lowByte w
    let success := success && r1.1
    let lowByte := r1.2.1
    let r2 := self.readRegister ((reg + 1) % 256) highByte r1.2.2
    let success := success && r2.1
    let highByte := r2.2.1
    if success then
      (success, ((highByte <<< 8) ||| lowByte) % 65536, r2.2.2)
    else
      (success, value, r2.2.2)

/-- Mode selection `CH224A::setFixedVoltage`. -/
def setFixedVoltage (self : CH224A σ) (mode : CH224A_VoltageMode) (w : World σ) :
    Bool × World σ :=
  self.writeRegister CH224A_REG_VOLTAGE_CTRL mode.toUInt8 w

/-- Wrapper `setVoltage5V`. -/
def setVoltage5V (self : CH224A σ) (w : World σ) : Bool × World σ :=
  self.setFixedVoltage .CH224A_VOLTAGE_5V w

/-- Wrapper `setVoltage9V`. -/
def setVoltage9V (self : CH224A σ) (w : World σ) : Bool × World σ :=
  self.setFixedVoltage .CH224A_VOLTAGE_9V w

/-- Wrapper `setVoltage12V`. -/
def setVoltage12V (self : CH224A σ) (w : World σ) : Bool × World σ :=
  self.setFixedVoltage .CH224A_VOLTAGE_12V w

/-- Wrapper `setVoltage15V`. -/
def setVoltage15V (self : CH224A σ) (w : World σ) : Bool × World σ :=
  self.setFixedVoltage .CH224A_VOLTAGE_15V w

/-- Wrapper `setVoltage20V`. -/
def setVoltage20V (self : CH224A σ) (w : World σ) : Bool × World σ :=
  self.setFixedVoltage .CH224A_VOLTAGE_20V w

/-- Wrapper `setVoltage28V`. -/
def setVoltage28V (self : CH224A σ) (w : World σ) : Bool × World σ :=
  self.setFixedVoltage .CH224A_VOLTAGE_28V w

/-- Raw PPS setter `CH224A::setPPSVoltageRaw`: magnitude, then mode. -/
def setPPSVoltageRaw (self : CH224A σ) (voltage : Nat) (w : World σ) : Bool × World σ :=
  let success := true
  let r1 := self.writeRegister CH224A_REG_PPS_VOLTAGE voltage w
  let success := success && r1.1
  let r2 := self.setFixedVoltage .CH224A_VOLTAGE_PPS r1.2
  let success := success && r2.1
  (success, r2.2)

/-- PPS setter in volts `CH224A::setPPSVoltage`.  The argument is the exact
value of a finite `float`.  The source evaluates `voltage * 10.0 + 0.5` in
`double`: the product is exact there (a 24-bit significand times 10 needs at
most 28 bits), and rounding the sum to `double` never carries it across an
integer, so its integer part is the integer part of the exact sum used here. -/
def setPPSVoltage (self : CH224A σ) (voltage : ℚ) (w : World σ) : Bool × World σ :=
  let voltageRaw := truncToUInt 8 (voltage * 10 + 1 / 2)
  self.setPPSVoltageRaw voltageRaw w

/-- Raw AVS setter `CH224A::setAVSVoltageRaw`: 16-bit magnitude, then mode. -/
def setAVSVoltageRaw (self : CH224A σ) (voltage : Nat) (w : World σ) : Bool × World σ :=
  let success := true
  let r1 := self.writeRegister16 CH224A_REG_AVS_VOLTAGE_L voltage w
  let success := success && r1.1
  let r2 := self.setFixedVoltage .CH224A_VOLTAGE_AVS r1.2
  let success := success && r2.1
  (success, r2.2)

/-- AVS setter in volts `CH224A::setAVSVoltage`; see `setPPSVoltage` for the
arithmetic. -/
def setAVSVoltage (self : CH224A σ) (voltage : ℚ) (w : World σ) : Bool × World σ :=
  let voltageRaw := truncToUInt 16 (voltage * 10 + 1 / 2)
  self.setAVSVoltageRaw voltageRaw w

end CH224A

/-- State of the simulated register device: the register file, the bytes queued
in the open transaction, the register selected by the last address phase, and
the bytes received and not yet read. -/
structure EchoBus where
  regs : Nat → Nat
  tx : List Nat
  pointer : Nat
  rx : List Nat

/-- Simulated transport that echoes writes back.  A transaction of two bytes
`reg, value` stores `value` in register `reg`; a transaction of the single byte
`reg` selects register `reg`; a request for `quantity` bytes delivers the
registers from the selected one on; every transaction is acknowledged. -/
def echoWire : TwoWire EchoBus where
  beginTransmission s _ := { s with tx := [] }
  write s data := { s with tx := s.tx ++ [data] }
  endTransmission s _ :=
    match s.tx with
    | [reg] => ({ s with tx := [], pointer := reg }, 0)
    | [reg, value] =>
      ({ s with tx := [], pointer := reg, regs := fun r => if r = reg then value else s.regs r }, 0)
    | _ => ({ s with tx := [] }, 0)
  requestFrom s _ quantity :=
    ({ s with rx := (List.range quantity).map (fun i => s.regs (s.pointer + i)) },
     Fin.ofNat quantity)
  read s :=
    match s.rx with
    | [] => (s, -1)
    | b :: rest => ({ s with rx := rest }, (b : Int))

/-- State of the scripted transport: the completion codes, the byte counts and
the data bytes it will report, in order. -/
structure ScriptBus where
  codes : List (Fin 256)
  counts : List (Fin 256)
  data : List Int

/-- Scripted transport: each `endTransmission` reports the next completion code
(0 when none is left), each `requestFrom` the next byte count (0 when none is
left), each `read` the next data byte (-1 when none is left). -/
def scriptWire : TwoWire ScriptBus where
  beginTransmission s _ := s
  write s _ := s
  endTransmission s _ := ({ s with codes := s.codes.tail }, s.codes.headD 0)
  requestFrom s _ _ := ({ s with counts := s.counts.tail }, s.counts.headD 0)
  read s := ({ s with data := s.data.tail }, s.data.headD (-1))

/-- One call of a public operation by application code, with its arguments;
for the two reads, the content of the output parameter (and of the locals)
before the call. -/
inductive Op (σ : Type) where
  | begin (wirePort : TwoWire σ)
  | isConnected
  | getI2CAddress
  | writeRegister (reg value : Nat)
  | writeRegister16 (reg value : Nat)
  | readRegister (reg value : Nat)
  | readRegister16 (reg value lowByte highByte : Nat)
  | setFixedVoltage (mode : CH224A_VoltageMode)
  | setVoltage5V
  | setVoltage9V
  | setVoltage12V
  | setVoltage15V
  | setVoltage20V
  | setVoltage28V
  | setPPSVoltage (voltage : ℚ)
  | setPPSVoltageRaw (voltage : Nat)
  | setAVSVoltage (voltage : ℚ)
  | setAVSVoltageRaw (voltage : Nat)

namespace Op

variable {σ : Type}

/-- Handle and world after one public operation; the value it returns is
dropped.  Only `begin` assigns a field of the handle. -/
def apply (op : Op σ) (s : CH224A σ × World σ) : CH224A σ × World σ :=
  match op with
  | begin wirePort => (s.1.begin wirePort s.2).2
  | isConnected => (s.1, (s.1.isConnected s.2).2)
  | getI2CAddress => s
  | writeRegister reg value => (s.1, (s.1.writeRegister reg value s.2).2)
  | writeRegister16 reg value => (s.1, (s.1.writeRegister16 reg value s.2).2)
  | readRegister reg value => (s.1, (s.1.readRegister reg value s.2).2.2)
  | readRegister16 reg value lowByte highByte =>
    (s.1, (s.1.readRegister16 reg value lowByte highByte s.2).2.2)
  | setFixedVoltage mode => (s.1, (s.1.setFixedVoltage mode s.2).2)
  | setVoltage5V => (s.1, (s.1.setVoltage5V s.2).2)
  | setVoltage9V => (s.1, (s.1.setVoltage9V s.2).2)
  | setVoltage12V => (s.1, (s.1.setVoltage12V s.2).2)
  | setVoltage15V => (s.1, (s.1.setVoltage15V s.2).2)
  | setVoltage20V => (s.1, (s.1.setVoltage20V s.2).2)
  | setVoltage28V => (s.1, (s.1.setVoltage28V s.2).2)
  | setPPSVoltage voltage => (s.1, (s.1.setPPSVoltage voltage s.2).2)
  | setPPSVoltageRaw voltage => (s.1, (s.1.setPPSVoltageRaw voltage s.2).2)
  | setAVSVoltage voltage => (s.1, (s.1.setAVSVoltage voltage s.2).2)
  | setAVSVoltageRaw voltage => (s.1, (s.1.setAVSVoltageRaw voltage s.2).2)

/-- Handle and world after a finite sequence of public operations, first to
last. -/
def run (ops : List (Op σ)) (s : CH224A σ × World σ) : CH224A σ × World σ :=
  ops.foldl (fun t op => op.apply t) s

end Op

/-- The device address a call carries, if it carries one. -/
def Call.address : Call → Option Nat
  | Call.beginTransmission address => some address
  | Call.requestFrom address _ => some address
  | _ => none

/-- The log `after` is the log `before` followed by calls that, when they carry
a device address, carry `address`. -/
def issuedTo (address : Nat) (before after : List Call) : Prop :=
  ∃ added : List Call, after = before ++ added ∧
    ∀ c ∈ added, ∀ x : Nat, c.address = some x → x = address

/-- Effect of a single-byte write on the echoing device. -/
theorem echoWire_writeRegister (address reg value : Nat) (w : World EchoBus) :
    CH224A.writeRegister { _i2cAddress := address, _i2cPort := some echoWire } reg value w =
      (true,
       { bus := { regs := fun r => if r = reg then value else w.bus.regs r,
                  tx := [], pointer := reg, rx := w.bus.rx },
         calls := w.calls ++ [Call.beginTransmission address, Call.write reg, Call.write value,
           Call.endTransmission true, Call.delay 50] }) := by
  simp [CH224A.writeRegister, World.beginTransmission, World.write, World.endTransmission,
    World.delay, echoWire]

/-- Effect of a single-byte read on the echoing device. -/
theorem echoWire_readRegister (address reg out : Nat) (w : World EchoBus) :
    CH224A.readRegister { _i2cAddress := address, _i2cPort := some echoWire } reg out w =
      (true, w.bus.regs reg % 256,
       { bus := { regs := w.bus.regs, tx := [], pointer := reg, rx := [] },
         calls := w.calls ++ [Call.beginTransmission address, Call.write reg,
           Call.endTransmission false, Call.requestFrom address 1, Call.read] }) := by
  have h1 : (Fin.ofNat 1 : Fin 256) = 1 := rfl
  have h2 : ∀ n : Nat, ((n : Int) % 256).toNat = n % 256 := fun n => by omega
  simp [CH224A.readRegister, World.beginTransmission, World.write, World.endTransmission,
    World.requestFrom, World.read, echoWire, List.range_succ, h1, h2]

/-- A 16-bit word is the high byte shifted left by 8 or-ed with the low byte. -/
theorem uint16_of_bytes (value : Nat) (h : value < 65536) :
    (((value >>> 8) &&& 0xFF) <<< 8) ||| (value &&& 0xFF) = value := by
  have e1 : ∀ x : Nat, x &&& 0xFF = x % 256 := fun x => Nat.and_pow_two_sub_one_eq_mod x 8
  have e2 : ∀ b : Nat, b < 256 → ∀ a : Nat, 256 * a ||| b = 256 * a + b :=
    fun b hb a => (@Nat.mul_add_lt_is_or 8 b hb a).symm
  rw [e1, e1, Nat.shiftRight_eq_div_pow, Nat.shiftLeft_eq, Nat.mul_comm,
    e2 _ (Nat.mod_lt _ (by decide))]
  omega

/-- The integer part of a non-negative value is its floor. -/
theorem tdiv_num_den_of_nonneg (x : ℚ) (hx : 0 ≤ x) : Int.tdiv x.num x.den = ⌊x⌋ := by
  have hn : 0 ≤ x.num := Rat.num_nonneg.mpr hx
  rw [Int.tdiv_eq_ediv hn (by positivity), ← Rat.floor_def]

/-- On a non-negative value below `2 ^ 31` the conversion is the floor, kept in `bits`
bits. -/
theorem truncToUInt_of_nonneg (bits : Nat) (x : ℚ) (hx : 0 ≤ x) (hlt : x < 2147483648) :
    truncToUInt bits x = ⌊x⌋₊ % 2 ^ bits := by
  unfold truncToUInt
  rw [tdiv_num_den_of_nonneg x hx]
  have hf : 0 ≤ ⌊x⌋ := Int.floor_nonneg.mpr hx
  have hu : ⌊x⌋ < 2147483648 := Int.floor_lt.mpr (by exact_mod_cast hlt)
  have hc : ⌊x⌋ = ((⌊x⌋₊ : Nat) : Int) := by
    rw [Int.natCast_floor_eq_floor hx]
  have hin : (-2147483648 : Int) ≤ ⌊x⌋ ∧ ⌊x⌋ ≤ 2147483647 := ⟨by omega, by omega⟩
  simp only [hin, and_self, if_true]
  rw [hc]
  norm_cast

/-- Calls made by a single-byte write on a bound handle. -/
theorem writeRegister_bound {σ : Type} (port : TwoWire σ) (address reg value : Nat)
    (w : World σ) :
    (CH224A.writeRegister (CH224A.mk address (some port)) reg value w).2.calls =
      w.calls ++ [Call.beginTransmission address, Call.write reg, Call.write value,
        Call.endTransmission true, Call.delay 50] := by
  simp [CH224A.writeRegister, World.beginTransmission, World.write, World.endTransmission,
    World.delay]

/-- C1: on a handle bound to the echoing simulated transport, `writeRegister(reg, value)`
with an 8-bit `value` returns true, and the `readRegister(reg, out)` that follows returns
true and leaves `value` in `out`. -/
theorem C1_writeRegister_then_readRegister (address reg value out : Nat) (w : World EchoBus)
    (hvalue : value < 256) :
    (CH224A.writeRegister (CH224A.mk address (some echoWire)) reg value w).1 = true ∧
    (CH224A.readRegister (CH224A.mk address (some echoWire)) reg out
      (CH224A.writeRegister (CH224A.mk address (some echoWire)) reg value w).2).1 = true ∧
    (CH224A.readRegister (CH224A.mk address (some echoWire)) reg out
      (CH224A.writeRegister (CH224A.mk address (some echoWire)) reg value w).2).2.1 = value := by
  rw [echoWire_writeRegister, echoWire_readRegister]
  simp [Nat.mod_eq_of_lt hvalue]

/-- C1, instance: value 0x5A written to register 0x53 of a zeroed echoing device is read
back. -/
theorem C1_witness :
    (0x5A : Nat) < 256 ∧
    (CH224A.readRegister (CH224A.mk 0x22 (some echoWire)) 0x53 0
      (CH224A.writeRegister (CH224A.mk 0x22 (some echoWire)) 0x53 0x5A
        { bus := { regs := fun _ => 0, tx := [], pointer := 0, rx := [] }, calls := [] }).2).2.1
      = 0x5A :=
  ⟨by decide, (C1_writeRegister_then_readRegister 0x22 0x53 0x5A 0 _ (by decide)).2.2⟩

/-- C3: on a handle bound to the echoing simulated transport, `writeRegister16(reg, value)`
with a 16-bit `value` returns true, and the `readRegister16(reg, out)` that follows returns
true and leaves in `out` the word `(highByte << 8) | lowByte` of the two stored bytes,
which is `value`. -/
theorem C3_writeRegister16_then_readRegister16 (address reg value out lowByte highByte : Nat)
    (w : World EchoBus) (hvalue : value < 65536) :
    (CH224A.writeRegister16 (CH224A.mk address (some echoWire)) reg value w).1 = true ∧
    (CH224A.readRegister16 (CH224A.mk address (some echoWire)) reg out lowByte highByte
      (CH224A.writeRegister16 (CH224A.mk address (some echoWire)) reg value w).2).1 = true ∧
    (CH224A.readRegister16 (CH224A.mk address (some echoWire)) reg out lowByte highByte
      (CH224A.writeRegister16 (CH224A.mk address (some echoWire)) reg value w).2).2.1 = value ∧
    ((((value >>> 8) &&& 0xFF) <<< 8) ||| (value &&& 0xFF)) = value := by
  have hne : reg ≠ (reg + 1) % 256 := by omega
  have hne2 : ¬ (reg + 1) % 256 = reg := fun h => hne h.symm
  have hb := uint16_of_bytes value hvalue
  simp only [CH224A.writeRegister16, CH224A.readRegister16, echoWire_writeRegister,
    echoWire_readRegister]
  have hm : ∀ x : Nat, (x &&& 255) % 256 = x &&& 255 := fun x =>
    Nat.mod_eq_of_lt (Nat.lt_of_le_of_lt Nat.and_le_right (by decide))
  simp [hne, hne2, hb, hm, Nat.mod_eq_of_lt hvalue]

/-- C3, instance: the word 0xABCD written at register 0xFF of a zeroed echoing device is
read back. -/
theorem C3_witness :
    (0xABCD : Nat) < 65536 ∧
    (CH224A.readRegister16 (CH224A.mk 0x22 (some echoWire)) 0xFF 0 0 0
      (CH224A.writeRegister16 (CH224A.mk 0x22 (some echoWire)) 0xFF 0xABCD
        { bus := { regs := fun _ => 0, tx := [], pointer := 0, rx := [] }, calls := [] }).2).2.1
      = 0xABCD :=
  ⟨by decide, (C3_writeRegister16_then_readRegister16 0x22 0xFF 0xABCD 0 0 0 _ (by decide)).2.2.1⟩

/-- C4: whenever `readRegister16(reg, out)` returns false, whatever the handle, the bus
behaviour and the contents of the locals, `out` holds the value it had before the call. -/
theorem C4_readRegister16_failure_keeps_output {σ : Type} (self : CH224A σ)
    (reg value lowByte highByte : Nat) (w : World σ)
    (hfail : (self.readRegister16 reg value lowByte highByte w).1 = false) :
    (self.readRegister16 reg value lowByte highByte w).2.1 = value := by
  unfold CH224A.readRegister16 at hfail ⊢
  cases hp : self._i2cPort with
  | none => simp
  | some port =>
    simp only [hp] at hfail ⊢
    by_cases hs : (true && (self.readRegister reg lowByte w).1 &&
        (self.readRegister ((reg + 1) % 256) highByte
          (self.readRegister reg lowByte w).2.2).1) = true
    · rw [if_pos hs] at hfail
      rw [hs] at hfail
      cases hfail
    · rw [if_neg hs]

/-- C4, instance: the low-byte read succeeds with 0xAB, the high-byte read receives no
byte; the call returns false and the output still holds 0x1234. -/
theorem C4_witness :
    (CH224A.readRegister16 (CH224A.mk 0x22 (some scriptWire)) 0x51 0x1234 0 0
      { bus := { codes := [0, 0], counts := [1, 0], data := [0xAB] }, calls := [] }).1 = false ∧
    (CH224A.readRegister16 (CH224A.mk 0x22 (some scriptWire)) 0x51 0x1234 0 0
      { bus := { codes := [0, 0], counts := [1, 0], data := [0xAB] }, calls := [] }).2.1 = 0x1234 :=
  ⟨by decide, C4_readRegister16_failure_keeps_output _ 0x51 0x1234 0 0 _ (by decide)⟩

/-- C5: on a handle that was constructed and never bound, every boolean operation returns
false for every argument and leaves the bus and the call log as they were: no call reaches
the transport or the timer; the output parameters of the reads keep their content. -/
theorem C5_unbound_operations_fail {σ : Type} (address reg value out lowByte highByte : Nat)
    (mode : CH224A_VoltageMode) (voltage : ℚ) (w : World σ) :
    (CH224A.new address : CH224A σ).isConnected w = (false, w) ∧
    (CH224A.new address : CH224A σ).writeRegister reg value w = (false, w) ∧
    (CH224A.new address : CH224A σ).writeRegister16 reg value w = (false, w) ∧
    (CH224A.new address : CH224A σ).readRegister reg out w = (false, out, w) ∧
    (CH224A.new address : CH224A σ).readRegister16 reg out lowByte highByte w = (false, out, w) ∧
    (CH224A.new address : CH224A σ).setFixedVoltage mode w = (false, w) ∧
    (CH224A.new address : CH224A σ).setVoltage5V w = (false, w) ∧
    (CH224A.new address : CH224A σ).setVoltage9V w = (false, w) ∧
    (CH224A.new address : CH224A σ).setVoltage12V w = (false, w) ∧
    (CH224A.new address : CH224A σ).setVoltage15V w = (false, w) ∧
    (CH224A.new address : CH224A σ).setVoltage20V w = (false, w) ∧
    (CH224A.new address : CH224A σ).setVoltage28V w = (false, w) ∧
    (CH224A.new address : CH224A σ).setPPSVoltageRaw value w = (false, w) ∧
    (CH224A.new address : CH224A σ).setPPSVoltage voltage w = (false, w) ∧
    (CH224A.new address : CH224A σ).setAVSVoltageRaw value w = (false, w) ∧
    (CH224A.new address : CH224A σ).setAVSVoltage voltage w = (false, w) := by
  simp [CH224A.new, CH224A.isConnected, CH224A.writeRegister, CH224A.writeRegister16,
    CH224A.readRegister, CH224A.readRegister16, CH224A.setFixedVoltage, CH224A.setVoltage5V,
    CH224A.setVoltage9V, CH224A.setVoltage12V, CH224A.setVoltage15V, CH224A.setVoltage20V,
    CH224A.setVoltage28V, CH224A.setPPSVoltageRaw, CH224A.setPPSVoltage,
    CH224A.setAVSVoltageRaw, CH224A.setAVSVoltage]

/-- Calls made by the raw PPS setter on a bound handle. -/
theorem setPPSVoltageRaw_bound {σ : Type} (port : TwoWire σ) (address v : Nat)
    (w : World σ) :
    (CH224A.setPPSVoltageRaw (CH224A.mk address (some port)) v w).2.calls =
      w.calls ++
        [Call.beginTransmission address, Call.write 0x53, Call.write v,
         Call.endTransmission true, Call.delay 50,
         Call.beginTransmission address, Call.write 0x0A, Call.write 6,
         Call.endTransmission true, Call.delay 50] := by
  simp [CH224A.setPPSVoltageRaw, CH224A.setFixedVoltage, writeRegister_bound,
    CH224A_REG_PPS_VOLTAGE, CH224A_REG_VOLTAGE_CTRL, CH224A_VoltageMode.toUInt8]

/-- C8: for every handle, argument and bus behaviour, `setPPSVoltageRaw` returns true
exactly when its magnitude write and its mode write both returned true, and
`setAVSVoltageRaw` exactly when its two magnitude writes and its mode write all returned
true; a failed magnitude write makes the setter return false whatever the mode write
returns. -/
theorem C8_raw_setters_and_of_subwrites {σ : Type} (self : CH224A σ) (v word : Nat)
    (w : World σ) :
    ((self.setPPSVoltageRaw v w).1 = true ↔
      (self.writeRegister 0x53 v w).1 = true ∧
      (self.writeRegister 0x0A 6 (self.writeRegister 0x53 v w).2).1 = true) ∧
    ((self.setAVSVoltageRaw word w).1 = true ↔
      (self.writeRegister 0x51 (word &&& 0xFF) w).1 = true ∧
      (self.writeRegister 0x52 ((word >>> 8) &&& 0xFF)
        (self.writeRegister 0x51 (word &&& 0xFF) w).2).1 = true ∧
      (self.writeRegister 0x0A 7
        (self.writeRegister 0x52 ((word >>> 8) &&& 0xFF)
          (self.writeRegister 0x51 (word &&& 0xFF) w).2).2).1 = true) ∧
    ((self.writeRegister 0x53 v w).1 = false → (self.setPPSVoltageRaw v w).1 = false) ∧
    ((self.writeRegister16 0x51 word w).1 = false → (self.setAVSVoltageRaw word w).1 = false) := by
  refine ⟨?_, ?_, ?_, ?_⟩
  · simp [CH224A.setPPSVoltageRaw, CH224A.setFixedVoltage, CH224A_REG_PPS_VOLTAGE,
      CH224A_REG_VOLTAGE_CTRL, CH224A_VoltageMode.toUInt8]
  · cases hp : self._i2cPort with
    | none =>
      simp [CH224A.setAVSVoltageRaw, CH224A.setFixedVoltage, CH224A.writeRegister16,
        CH224A.writeRegister, hp]
    | some port =>
      simp [CH224A.setAVSVoltageRaw, CH224A.setFixedVoltage, CH224A.writeRegister16, hp,
        CH224A_REG_AVS_VOLTAGE_L, CH224A_REG_VOLTAGE_CTRL, CH224A_VoltageMode.toUInt8,
        and_assoc]
  · intro h
    simp [CH224A.setPPSVoltageRaw, CH224A_REG_PPS_VOLTAGE, h]
  · intro h
    simp [CH224A.setAVSVoltageRaw, CH224A_REG_AVS_VOLTAGE_L, h]

/-- C8, instance: the magnitude write is refused with code 2 and the mode write is
acknowledged; `setPPSVoltageRaw(90)` returns false. -/
theorem C8_witness :
    (CH224A.writeRegister (CH224A.mk 0x22 (some scriptWire)) 0x53 90
      { bus := { codes := [2, 0], counts := [], data := [] }, calls := [] }).1 = false ∧
    (CH224A.writeRegister (CH224A.mk 0x22 (some scriptWire)) 0x0A 6
      (CH224A.writeRegister (CH224A.mk 0x22 (some scriptWire)) 0x53 90
        { bus := { codes := [2, 0], counts := [], data := [] }, calls := [] }).2).1 = true ∧
    (CH224A.setPPSVoltageRaw (CH224A.mk 0x22 (some scriptWire)) 90
      { bus := { codes := [2, 0], counts := [], data := [] }, calls := [] }).1 = false :=
  ⟨by decide, by decide,
   (C8_raw_setters_and_of_subwrites (CH224A.mk 0x22 (some scriptWire)) 90 0
      { bus := { codes := [2, 0], counts := [], data := [] }, calls := [] }).2.2.1 (by decide)⟩

/-- On a non-negative voltage with `v * 10 + 0.5` below `2 ^ 31` the conversion of
`v * 10 + 0.5` is half-up rounding of `v * 10`, kept in `bits` bits. -/
theorem truncToUInt_half_up (bits : Nat) (v : ℚ) (hv : 0 ≤ v)
    (hlt : v * 10 + 1 / 2 < 2147483648) :
    truncToUInt bits (v * 10 + 1 / 2) = (round (v * 10)).toNat % 2 ^ bits := by
  have hx : (0 : ℚ) ≤ v * 10 + 1 / 2 := by positivity
  rw [truncToUInt_of_nonneg bits _ hx hlt, round_eq, Int.floor_toNat]

/-- The conversion of a value between `k` and `k + 1`, with `k` below `2 ^ 31`, is `k`,
kept in `bits` bits. -/
theorem truncToUInt_of_floor (bits k : Nat) (x : ℚ) (h1 : (k : ℚ) ≤ x) (h2 : x < k + 1)
    (hk : k < 2147483648) :
    truncToUInt bits x = k % 2 ^ bits := by
  have hx : (0 : ℚ) ≤ x := le_trans (Nat.cast_nonneg k) h1
  have hlt : x < 2147483648 := by
    have : ((k : ℚ) + 1) ≤ 2147483648 := by exact_mod_cast hk
    exact lt_of_lt_of_le h2 this
  rw [truncToUInt_of_nonneg bits x hx hlt, (Nat.floor_eq_iff hx).mpr ⟨h1, h2⟩]

/-- C9 as stated fails at 26.0 V, an exact 0.1 V multiple: `round(26.0 * 10)` is 260, the
`uint8_t` raw value is 4, and the byte written to the PPS register is 4. -/
theorem C9_counterexample :
    round ((26 : ℚ) * 10) = 260 ∧
    (CH224A.setPPSVoltage (CH224A.mk 0x22 (some scriptWire)) 26
        { bus := { codes := [], counts := [], data := [] }, calls := [] }).2.calls =
      [Call.beginTransmission 0x22, Call.write 0x53, Call.write 4,
       Call.endTransmission true, Call.delay 50,
       Call.beginTransmission 0x22, Call.write 0x0A, Call.write 6,
       Call.endTransmission true, Call.delay 50] ∧
    CH224A.setPPSVoltage (CH224A.mk 0x22 (some scriptWire)) 26
        { bus := { codes := [], counts := [], data := [] }, calls := [] } ≠
      CH224A.setPPSVoltageRaw (CH224A.mk 0x22 (some scriptWire)) (round ((26 : ℚ) * 10)).toNat
        { bus := { codes := [], counts := [], data := [] }, calls := [] } := by
  have hr : round ((26 : ℚ) * 10) = 260 := by
    rw [round_eq, Int.floor_eq_iff]; norm_num
  have ht : truncToUInt 8 ((26 : ℚ) * 10 + 1 / 2) = 4 := by
    rw [truncToUInt_of_floor 8 260 _ (by norm_num) (by norm_num) (by norm_num)]
    rfl
  refine ⟨hr, ?_, ?_⟩
  · rw [CH224A.setPPSVoltage, ht, setPPSVoltageRaw_bound]
    rfl
  · intro h
    have hc := congrArg (fun r => r.2.calls) h
    rw [CH224A.setPPSVoltage, ht, hr] at hc
    simp [setPPSVoltageRaw_bound] at hc

/-- C9 (amended): for every volt input `v` with `0 ≤ v` and `v * 10 + 0.5 < 256`, which
covers every exact 0.1 V multiple from 0 V to 25.5 V, `setPPSVoltage(v)` is
`setPPSVoltageRaw(round(v * 10))`; the inputs 9.0, 20.0 and 3.3 (also as the nearest
`float`, 13841203 / 2^22) give 90, 200 and 33, and on a bound handle `setPPSVoltage(9.0)`
writes 90 to the PPS register and then mode code 6 to the control register. -/
theorem C9_setPPSVoltage_in_range {σ : Type} (self : CH224A σ) (port : TwoWire σ)
    (address : Nat) (v : ℚ) (w : World σ) (h0 : 0 ≤ v) (h1 : v * 10 + 1 / 2 < 256) :
    self.setPPSVoltage v w = self.setPPSVoltageRaw (round (v * 10)).toNat w ∧
    self.setPPSVoltage 9 w = self.setPPSVoltageRaw 90 w ∧
    self.setPPSVoltage 20 w = self.setPPSVoltageRaw 200 w ∧
    self.setPPSVoltage (33 / 10) w = self.setPPSVoltageRaw 33 w ∧
    self.setPPSVoltage (13841203 / 4194304) w = self.setPPSVoltageRaw 33 w ∧
    (CH224A.setPPSVoltage (CH224A.mk address (some port)) 9 w).2.calls =
      w.calls ++
        [Call.beginTransmission address, Call.write 0x53, Call.write 90,
         Call.endTransmission true, Call.delay 50,
         Call.beginTransmission address, Call.write 0x0A, Call.write 6,
         Call.endTransmission true, Call.delay 50] := by
  have e9 : truncToUInt 8 ((9 : ℚ) * 10 + 1 / 2) = 90 := by
    rw [truncToUInt_of_floor 8 90 _ (by norm_num) (by norm_num) (by norm_num)]; rfl
  have e20 : truncToUInt 8 ((20 : ℚ) * 10 + 1 / 2) = 200 := by
    rw [truncToUInt_of_floor 8 200 _ (by norm_num) (by norm_num) (by norm_num)]; rfl
  have e33 : truncToUInt 8 ((33 / 10 : ℚ) * 10 + 1 / 2) = 33 := by
    rw [truncToUInt_of_floor 8 33 _ (by norm_num) (by norm_num) (by norm_num)]; rfl
  have e33f : truncToUInt 8 ((13841203 / 4194304 : ℚ) * 10 + 1 / 2) = 33 := by
    rw [truncToUInt_of_floor 8 33 _ (by norm_num) (by norm_num) (by norm_num)]; rfl
  refine ⟨?_, ?_, ?_, ?_, ?_, ?_⟩
  · have hx : (0 : ℚ) ≤ v * 10 + 1 / 2 := by positivity
    have hlt : ⌊v * 10 + 1 / 2⌋₊ < 2 ^ 8 := (Nat.floor_lt hx).mpr (by exact_mod_cast h1)
    have hb : v * 10 + 1 / 2 < 2147483648 := lt_trans h1 (by norm_num)
    rw [CH224A.setPPSVoltage, truncToUInt_of_nonneg 8 _ hx hb, round_eq, Int.floor_toNat,
      Nat.mod_eq_of_lt hlt]
  · rw [CH224A.setPPSVoltage, e9]
  · rw [CH224A.setPPSVoltage, e20]
  · rw [CH224A.setPPSVoltage, e33]
  · rw [CH224A.setPPSVoltage, e33f]
  · rw [CH224A.setPPSVoltage, e9, setPPSVoltageRaw_bound]

/-- C9 (amended), instance: 25.5 V, the largest exact 0.1 V multiple in range. -/
theorem C9_witness :
    (0 : ℚ) ≤ 51 / 2 ∧ (51 / 2 : ℚ) * 10 + 1 / 2 < 256 ∧
    CH224A.setPPSVoltage (CH224A.mk 0x22 (some scriptWire)) (51 / 2)
        { bus := { codes := [], counts := [], data := [] }, calls := [] } =
      CH224A.setPPSVoltageRaw (CH224A.mk 0x22 (some scriptWire))
        (round ((51 / 2 : ℚ) * 10)).toNat
        { bus := { codes := [], counts := [], data := [] }, calls := [] } :=
  ⟨by norm_num, by norm_num,
   (C9_setPPSVoltage_in_range (CH224A.mk 0x22 (some scriptWire)) scriptWire 0x22 (51 / 2)
      { bus := { codes := [], counts := [], data := [] }, calls := [] }
      (by norm_num) (by norm_num)).1⟩

/-- Result of a single-byte write on a bound handle: true exactly when the completion
code of its transaction is 0. -/
theorem writeRegister_bound_result {σ : Type} (port : TwoWire σ) (address reg value : Nat)
    (w : World σ) :
    (CH224A.writeRegister (CH224A.mk address (some port)) reg value w).1 =
      ((port.endTransmission
          (port.write (port.write (port.beginTransmission w.bus address) reg) value)
          true).2 == 0) := by
  simp [CH224A.writeRegister, World.beginTransmission, World.write, World.endTransmission,
    World.delay]

/-- C11: `begin` on a fresh handle binds the transport, and on a transport that always
succeeds (the echoing device) it returns true; on the bound handle each fixed-voltage
wrapper makes exactly the calls of one single-byte write to the control register 0x0A,
with the byte 0, 1, 2, 3, 4, 5 for 5 V, 9 V, 12 V, 15 V, 20 V, 28 V; and on every handle
`setFixedVoltage(mode)` is `writeRegister(0x0A, (uint8_t)mode)` and each wrapper is that
write with its own code. -/
theorem C11_fixed_voltage_wrappers {σ : Type} (port : TwoWire σ) (address : Nat)
    (w0 w : World σ) (e0 : World EchoBus) (self : CH224A σ) (mode : CH224A_VoltageMode) :
    ((CH224A.new address).begin port w0).2.1 = CH224A.mk address (some port) ∧
    ((CH224A.new 0x22).begin echoWire e0).1 = true ∧
    ((CH224A.mk 0x22 (some echoWire)).setVoltage9V
        ((CH224A.new 0x22).begin echoWire e0).2.2).2.calls =
      e0.calls ++ [Call.beginTransmission 0x22, Call.endTransmission true,
        Call.beginTransmission 0x22, Call.write 0x0A, Call.write 1,
        Call.endTransmission true, Call.delay 50] ∧
    ((CH224A.mk address (some port)).setVoltage5V w).2.calls =
      w.calls ++ [Call.beginTransmission address, Call.write 0x0A, Call.write 0,
        Call.endTransmission true, Call.delay 50] ∧
    ((CH224A.mk address (some port)).setVoltage9V w).2.calls =
      w.calls ++ [Call.beginTransmission address, Call.write 0x0A, Call.write 1,
        Call.endTransmission true, Call.delay 50] ∧
    ((CH224A.mk address (some port)).setVoltage12V w).2.calls =
      w.calls ++ [Call.beginTransmission address, Call.write 0x0A, Call.write 2,
        Call.endTransmission true, Call.delay 50] ∧
    ((CH224A.mk address (some port)).setVoltage15V w).2.calls =
      w.calls ++ [Call.beginTransmission address, Call.write 0x0A, Call.write 3,
        Call.endTransmission true, Call.delay 50] ∧
    ((CH224A.mk address (some port)).setVoltage20V w).2.calls =
      w.calls ++ [Call.beginTransmission address, Call.write 0x0A, Call.write 4,
        Call.endTransmission true, Call.delay 50] ∧
    ((CH224A.mk address (some port)).setVoltage28V w).2.calls =
      w.calls ++ [Call.beginTransmission address, Call.write 0x0A, Call.write 5,
        Call.endTransmission true, Call.delay 50] ∧
    self.setFixedVoltage mode w = self.writeRegister 0x0A mode.toUInt8 w ∧
    self.setVoltage5V w = self.writeRegister 0x0A 0 w ∧
    self.setVoltage9V w = self.writeRegister 0x0A 1 w ∧
    self.setVoltage12V w = self.writeRegister 0x0A 2 w ∧
    self.setVoltage15V w = self.writeRegister 0x0A 3 w ∧
    self.setVoltage20V w = self.writeRegister 0x0A 4 w ∧
    self.setVoltage28V w = self.writeRegister 0x0A 5 w := by
  refine ⟨rfl, ?_, ?_, ?_, ?_, ?_, ?_, ?_, ?_, rfl, rfl, rfl, rfl, rfl, rfl, rfl⟩
  · simp [CH224A.begin, CH224A.new, CH224A.isConnected, World.beginTransmission,
      World.endTransmission, echoWire]
  · simp [CH224A.begin, CH224A.new, CH224A.isConnected, World.beginTransmission,
      World.endTransmission, CH224A.setVoltage9V, CH224A.setFixedVoltage,
      writeRegister_bound, CH224A_REG_VOLTAGE_CTRL, CH224A_VoltageMode.toUInt8]
  all_goals
    simp [CH224A.setVoltage5V, CH224A.setVoltage9V, CH224A.setVoltage12V,
      CH224A.setVoltage15V, CH224A.setVoltage20V, CH224A.setVoltage28V,
      CH224A.setFixedVoltage, writeRegister_bound, CH224A_REG_VOLTAGE_CTRL,
      CH224A_VoltageMode.toUInt8]

/-- C12: `readRegister(reg, out)` returns true exactly when the handle is bound, the
address phase (`beginTransmission`, `write(reg)`, `endTransmission(false)`) reports
completion code 0 and `requestFrom(address, 1)` reports one byte; it then leaves in `out`
the result of `read()` as a `uint8_t`, which is that byte when it lies in 0..255, and it
has made exactly these five calls. -/
theorem C12_readRegister_result {σ : Type} (self : CH224A σ) (port : TwoWire σ)
    (address reg value : Nat) (w : World σ) :
    ((self.readRegister reg value w).1 = true ↔
      ∃ p : TwoWire σ, self._i2cPort = some p ∧
        (((w.beginTransmission p self._i2cAddress).write p reg).endTransmission p false).1
          = 0 ∧
        ((((w.beginTransmission p self._i2cAddress).write p reg).endTransmission p
          false).2.requestFrom p self._i2cAddress 1).1 = 1) ∧
    (((CH224A.mk address (some port)).readRegister reg value w).1 = true →
      ((CH224A.mk address (some port)).readRegister reg value w).2.1 =
        ((((((w.beginTransmission port address).write port reg).endTransmission port
          false).2.requestFrom port address 1).2.read port).1 % 256).toNat ∧
      ((CH224A.mk address (some port)).readRegister reg value w).2.2.calls =
        w.calls ++ [Call.beginTransmission address, Call.write reg,
          Call.endTransmission false, Call.requestFrom address 1, Call.read] ∧
      (0 ≤ (((((w.beginTransmission port address).write port reg).endTransmission port
          false).2.requestFrom port address 1).2.read port).1 →
        (((((w.beginTransmission port address).write port reg).endTransmission port
          false).2.requestFrom port address 1).2.read port).1 < 256 →
        ((((CH224A.mk address (some port)).readRegister reg value w).2.1 : Nat) : Int) =
          (((((w.beginTransmission port address).write port reg).endTransmission port
            false).2.requestFrom port address 1).2.read port).1)) := by
  constructor
  · cases hp : self._i2cPort with
    | none => simp [CH224A.readRegister, hp]
    | some p =>
      simp only [CH224A.readRegister, hp]
      by_cases h1 : (((w.beginTransmission p self._i2cAddress).write p reg).endTransmission p
          false).1 = 0
      · by_cases h2 : ((((w.beginTransmission p self._i2cAddress).write p reg).endTransmission
            p false).2.requestFrom p self._i2cAddress 1).1 = 1
        · simp [h1, h2]
        · simp [h1, h2]
      · simp [h1]
  · intro h
    simp only [CH224A.readRegister] at h ⊢
    by_cases h1 : (((w.beginTransmission port address).write port reg).endTransmission port
        false).1 = 0
    · by_cases h2 : ((((w.beginTransmission port address).write port reg).endTransmission
          port false).2.requestFrom port address 1).1 = 1
      · simp only [h1, h2, bne_self_eq_false, Bool.false_eq_true, if_false, beq_self_eq_true,
          if_true]
        refine ⟨trivial, ?_, ?_⟩
        · simp [World.beginTransmission, World.write, World.endTransmission,
            World.requestFrom, World.read]
        · intro h0 h256
          omega
      · simp [h1, h2] at h
    · simp [h1] at h

/-- C12, instance: the address phase is acknowledged, one byte is reported and `read()`
gives 0xAB; the call returns true with 0xAB in the output. -/
theorem C12_witness :
    ((CH224A.mk 0x22 (some scriptWire)).readRegister 0x0A 0
      { bus := { codes := [0], counts := [1], data := [0xAB] }, calls := [] }).1 = true ∧
    ((CH224A.mk 0x22 (some scriptWire)).readRegister 0x0A 0
      { bus := { codes := [0], counts := [1], data := [0xAB] }, calls := [] }).2.1 = 0xAB :=
  ⟨by decide,
   ((C12_readRegister_result (CH224A.mk 0x22 (some scriptWire)) scriptWire 0x22 0x0A 0
      { bus := { codes := [0], counts := [1], data := [0xAB] }, calls := [] }).2
      (by decide)).1⟩

/-- C13: on a bound handle `writeRegister(reg, value)` makes exactly the calls of one
transaction, `beginTransmission(address)`, `write(reg)`, `write(value)`,
`endTransmission()`, in that order, followed by the settle delay; on every handle it
returns true exactly when the handle is bound and that transaction's completion code
is 0. -/
theorem C13_writeRegister_transaction {σ : Type} (self : CH224A σ) (port : TwoWire σ)
    (address reg value : Nat) (w : World σ) :
    ((CH224A.mk address (some port)).writeRegister reg value w).2.calls =
      w.calls ++ [Call.beginTransmission address, Call.write reg, Call.write value,
        Call.endTransmission true, Call.delay 50] ∧
    ((CH224A.mk address (some port)).writeRegister reg value w).2.bus =
      (port.endTransmission
        (port.write (port.write (port.beginTransmission w.bus address) reg) value) true).1 ∧
    ((self.writeRegister reg value w).1 = true ↔
      ∃ p : TwoWire σ, self._i2cPort = some p ∧
        ((((w.beginTransmission p self._i2cAddress).write p reg).write p
          value).endTransmission p true).1 = 0) := by
  refine ⟨writeRegister_bound port address reg value w, ?_, ?_⟩
  · simp [CH224A.writeRegister, World.beginTransmission, World.write, World.endTransmission,
      World.delay]
  · cases hp : self._i2cPort with
    | none => simp [CH224A.writeRegister, hp]
    | some p => simp [CH224A.writeRegister, hp]

/-- C14: `isConnected` returns true exactly when the handle is bound and the transaction
`beginTransmission(address)`, `endTransmission()` with no byte in between completes with
code 0; on a bound handle these two calls are all it makes; `begin(transport)` binds
the transport, keeps the address, and returns what `isConnected` returns on the bound
handle, leaving the same world. -/
theorem C14_isConnected_and_begin {σ : Type} (self : CH224A σ) (port : TwoWire σ)
    (address : Nat) (w : World σ) :
    ((self.isConnected w).1 = true ↔
      ∃ p : TwoWire σ, self._i2cPort = some p ∧
        ((w.beginTransmission p self._i2cAddress).endTransmission p true).1 = 0) ∧
    ((CH224A.mk address (some port)).isConnected w).2.calls =
      w.calls ++ [Call.beginTransmission address, Call.endTransmission true] ∧
    (self.begin port w).2.1 = CH224A.mk self._i2cAddress (some port) ∧
    (self.begin port w).1 = ((CH224A.mk self._i2cAddress (some port)).isConnected w).1 ∧
    (self.begin port w).2.2 = ((CH224A.mk self._i2cAddress (some port)).isConnected w).2 ∧
    ((self.begin port w).1 = true ↔
      (port.endTransmission (port.beginTransmission w.bus self._i2cAddress) true).2 = 0) := by
  refine ⟨?_, ?_, rfl, rfl, rfl, ?_⟩
  · cases hp : self._i2cPort with
    | none => simp [CH224A.isConnected, hp]
    | some p => simp [CH224A.isConnected, hp]
  · simp [CH224A.isConnected, World.beginTransmission, World.endTransmission]
  · simp [CH224A.begin, CH224A.isConnected, World.beginTransmission, World.endTransmission]

/-- C15: on a bound handle, whatever completion code the transport reports, the calls of
`writeRegister` end with `endTransmission()` followed by `delay(50)`, and that is the only
delay among them; on the scripted transport the call returns `code == 0` for every
completion code `code` and has made the delay in either case. -/
theorem C15_writeRegister_settle_delay {σ : Type} (port : TwoWire σ)
    (address reg value : Nat) (w : World σ) (code : Fin 256) (s : ScriptBus)
    (log : List Call) :
    ((CH224A.mk address (some port)).writeRegister reg value w).2.calls =
      (w.calls ++ [Call.beginTransmission address, Call.write reg, Call.write value]) ++
        [Call.endTransmission true, Call.delay 50] ∧
    (((CH224A.mk address (some port)).writeRegister reg value w).2.calls.drop
      w.calls.length).filter (fun c => match c with | Call.delay _ => true | _ => false) =
      [Call.delay 50] ∧
    (CH224A.mk address (some scriptWire)).writeRegister reg value
        { bus := { s with codes := code :: s.codes }, calls := log } =
      (code == 0,
       { bus := s,
         calls := log ++ [Call.beginTransmission address, Call.write reg, Call.write value,
           Call.endTransmission true, Call.delay 50] }) := by
  refine ⟨?_, ?_, ?_⟩
  · simp [writeRegister_bound]
  · simp [writeRegister_bound]
  · simp [CH224A.writeRegister, World.beginTransmission, World.write, World.endTransmission,
      World.delay, scriptWire]

/-- C16: on a bound handle `writeRegister16` returns the conjunction of the results of its
two sub-writes, the second made in the world the first left, whatever the first returned;
its calls are those of the two sub-writes, each ending with its own `delay(50)`, two
delays in all; on the scripted transport with completion codes `c1`, `c2` it returns
`c1 == 0 && c2 == 0`. -/
theorem C16_writeRegister16_delays_and_result {σ : Type} (port : TwoWire σ)
    (address reg value : Nat) (w : World σ) (c1 c2 : Fin 256) (s : ScriptBus)
    (log : List Call) :
    (CH224A.mk address (some port)).writeRegister16 reg value w =
      ((((CH224A.mk address (some port)).writeRegister reg (value &&& 0xFF) w).1 &&
        ((CH224A.mk address (some port)).writeRegister ((reg + 1) % 256)
          ((value >>> 8) &&& 0xFF)
          ((CH224A.mk address (some port)).writeRegister reg (value &&& 0xFF) w).2).1),
       ((CH224A.mk address (some port)).writeRegister ((reg + 1) % 256)
          ((value >>> 8) &&& 0xFF)
          ((CH224A.mk address (some port)).writeRegister reg (value &&& 0xFF) w).2).2) ∧
    ((CH224A.mk address (some port)).writeRegister16 reg value w).2.calls =
      w.calls ++
        [Call.beginTransmission address, Call.write reg, Call.write (value &&& 0xFF),
         Call.endTransmission true, Call.delay 50,
         Call.beginTransmission address, Call.write ((reg + 1) % 256),
         Call.write ((value >>> 8) &&& 0xFF), Call.endTransmission true, Call.delay 50] ∧
    (((CH224A.mk address (some port)).writeRegister16 reg value w).2.calls.drop
      w.calls.length).filter (fun c => match c with | Call.delay _ => true | _ => false) =
      [Call.delay 50, Call.delay 50] ∧
    ((CH224A.mk address (some scriptWire)).writeRegister16 reg value
        { bus := { s with codes := c1 :: c2 :: s.codes }, calls := log }).1 =
      (c1 == 0 && c2 == 0) := by
  refine ⟨?_, ?_, ?_, ?_⟩
  · simp [CH224A.writeRegister16]
  · simp [CH224A.writeRegister16, writeRegister_bound]
  · simp [CH224A.writeRegister16, writeRegister_bound]
  · simp [CH224A.writeRegister16, CH224A.writeRegister, World.beginTransmission, World.write,
      World.endTransmission, World.delay, scriptWire]

/-- No public operation changes the address stored in the handle. -/
theorem Op.apply_address {σ : Type} (op : Op σ) (s : CH224A σ × World σ) :
    (op.apply s).1._i2cAddress = s.1._i2cAddress := by
  cases op <;> rfl

/-- A sequence of public operations leaves the stored address as it was. -/
theorem Op.run_address {σ : Type} (ops : List (Op σ)) (s : CH224A σ × World σ) :
    (Op.run ops s).1._i2cAddress = s.1._i2cAddress := by
  induction ops generalizing s with
  | nil => rfl
  | cons op rest ih =>
    have h := ih (op.apply s)
    rw [Op.apply_address] at h
    exact h

/-- C17: for every constructor argument `a`, every finite sequence of public operations
(with any arguments and any transports passed to `begin`) and every behaviour of the
world, `getI2CAddress()` afterwards returns `a`. -/
theorem C17_address_immutable {σ : Type} (a : Nat) (ops : List (Op σ)) (w : World σ) :
    (Op.run ops (CH224A.new a, w)).1.getI2CAddress = a :=
  Op.run_address ops (CH224A.new a, w)

/-- Calls made by a double-byte write on a bound handle. -/
theorem writeRegister16_bound {σ : Type} (port : TwoWire σ) (address reg value : Nat)
    (w : World σ) :
    (CH224A.writeRegister16 (CH224A.mk address (some port)) reg value w).2.calls =
      w.calls ++
        [Call.beginTransmission address, Call.write reg, Call.write (value &&& 0xFF),
         Call.endTransmission true, Call.delay 50,
         Call.beginTransmission address, Call.write ((reg + 1) % 256),
         Call.write ((value >>> 8) &&& 0xFF), Call.endTransmission true, Call.delay 50] := by
  simp [CH224A.writeRegister16, writeRegister_bound]

/-- Calls made by a single-byte read on a bound handle: the address phase, then nothing,
the request, or the request and the read. -/
theorem readRegister_bound {σ : Type} (port : TwoWire σ) (address reg value : Nat)
    (w : World σ) :
    ∃ t : List Call,
      (CH224A.readRegister (CH224A.mk address (some port)) reg value w).2.2.calls =
        w.calls ++ [Call.beginTransmission address, Call.write reg,
          Call.endTransmission false] ++ t ∧
      (t = [] ∨ t = [Call.requestFrom address 1] ∨
        t = [Call.requestFrom address 1, Call.read]) := by
  simp only [CH224A.readRegister]
  by_cases h1 : (((w.beginTransmission port address).write port reg).endTransmission port
      false).1 = 0
  · by_cases h2 : ((((w.beginTransmission port address).write port reg).endTransmission
        port false).2.requestFrom port address 1).1 = 1
    · refine ⟨[Call.requestFrom address 1, Call.read], ?_, Or.inr (Or.inr rfl)⟩
      rw [if_neg (by simp [h1]), if_pos (by simp [h2])]
      simp [World.beginTransmission, World.write, World.endTransmission,
        World.requestFrom, World.read]
    · refine ⟨[Call.requestFrom address 1], ?_, Or.inr (Or.inl rfl)⟩
      rw [if_neg (by simp [h1]), if_neg (by simp [h2])]
      simp [World.beginTransmission, World.write, World.endTransmission,
        World.requestFrom]
  · refine ⟨[], ?_, Or.inl rfl⟩
    rw [if_pos (by simp [h1])]
    simp [World.beginTransmission, World.write, World.endTransmission]

/-- Calls made by a double-byte read on a bound handle: the calls of a read of `reg`
followed by those of a read of the next register address. -/
theorem readRegister16_bound {σ : Type} (port : TwoWire σ)
    (address reg value lowByte highByte : Nat) (w : World σ) :
    ∃ t1 t2 : List Call,
      (CH224A.readRegister16 (CH224A.mk address (some port)) reg value lowByte highByte
          w).2.2.calls =
        w.calls ++ [Call.beginTransmission address, Call.write reg,
          Call.endTransmission false] ++ t1 ++
          [Call.beginTransmission address, Call.write ((reg + 1) % 256),
           Call.endTransmission false] ++ t2 ∧
      (t1 = [] ∨ t1 = [Call.requestFrom address 1] ∨
        t1 = [Call.requestFrom address 1, Call.read]) ∧
      (t2 = [] ∨ t2 = [Call.requestFrom address 1] ∨
        t2 = [Call.requestFrom address 1, Call.read]) := by
  obtain ⟨t1, e1, h1⟩ := readRegister_bound port address reg lowByte w
  obtain ⟨t2, e2, h2⟩ := readRegister_bound port address ((reg + 1) % 256) highByte
    (CH224A.readRegister (CH224A.mk address (some port)) reg lowByte w).2.2
  refine ⟨t1, t2, ?_, h1, h2⟩
  have hc : (CH224A.readRegister16 (CH224A.mk address (some port)) reg value lowByte highByte
      w).2.2 =
      (CH224A.readRegister (CH224A.mk address (some port)) ((reg + 1) % 256) highByte
        (CH224A.readRegister (CH224A.mk address (some port)) reg lowByte w).2.2).2.2 := by
    simp only [CH224A.readRegister16]
    split <;> rfl
  rw [hc, e2, e1]

/-- The result of a double-byte read on a bound handle is the conjunction of the results
of its two reads. -/
theorem readRegister16_bound_result {σ : Type} (port : TwoWire σ)
    (address reg value lowByte highByte : Nat) (w : World σ) :
    (CH224A.readRegister16 (CH224A.mk address (some port)) reg value lowByte highByte w).1 =
      ((CH224A.readRegister (CH224A.mk address (some port)) reg lowByte w).1 &&
       (CH224A.readRegister (CH224A.mk address (some port)) ((reg + 1) % 256) highByte
        (CH224A.readRegister (CH224A.mk address (some port)) reg lowByte w).2.2).1) := by
  simp only [CH224A.readRegister16]
  split
  · simp
  · simp

/-- A double-byte read on a bound handle is a read of `reg` into the low byte followed
by a read of the next register address into the high byte; the output is assigned the
word of the two bytes when both reads succeeded and is left alone otherwise. -/
theorem readRegister16_bound_eq {σ : Type} (port : TwoWire σ)
    (address reg value lowByte highByte : Nat) (w : World σ) :
    let r1 := CH224A.readRegister (CH224A.mk address (some port)) reg lowByte w
    let r2 := CH224A.readRegister (CH224A.mk address (some port)) ((reg + 1) % 256) highByte
      r1.2.2
    CH224A.readRegister16 (CH224A.mk address (some port)) reg value lowByte highByte w =
      (r1.1 && r2.1,
       if (r1.1 && r2.1) = true then ((r2.2.1 <<< 8) ||| r1.2.1) % 65536 else value,
       r2.2.2) := by
  intro r1 r2
  simp only [CH224A.readRegister16]
  by_cases hs : (r1.1 && r2.1) = true
  · have hs2 : (true && r1.1 && r2.1) = true := by simpa using hs
    rw [if_pos hs2, if_pos hs]
    simp
  · have hs2 : ¬ (true && r1.1 && r2.1) = true := by simpa using hs
    rw [if_neg hs2, if_neg hs]
    simp

/-- Effect of a double-byte read on the echoing device: both registers are requested and
read, the low byte from `reg`, the high byte from the next register address. -/
theorem echoWire_readRegister16 (address reg out lowByte highByte : Nat)
    (w : World EchoBus) :
    CH224A.readRegister16 (CH224A.mk address (some echoWire)) reg out lowByte highByte w =
      (true,
       (((w.bus.regs ((reg + 1) % 256) % 256) <<< 8) ||| (w.bus.regs reg % 256)) % 65536,
       { bus := { regs := w.bus.regs, tx := [], pointer := (reg + 1) % 256, rx := [] },
         calls := w.calls ++
           [Call.beginTransmission address, Call.write reg, Call.endTransmission false,
            Call.requestFrom address 1, Call.read,
            Call.beginTransmission address, Call.write ((reg + 1) % 256),
            Call.endTransmission false, Call.requestFrom address 1, Call.read] }) := by
  simp only [CH224A.readRegister16, echoWire_readRegister]
  simp

/-- C18: the second register of the 16-bit operations is `(reg + 1) mod 256`.  On a
bound handle `writeRegister16(0xFF, value)` writes the low byte to register 0xFF and
the high byte to register 0x00, and `readRegister16(0xFF, out)` is a read of register
0xFF into the low byte followed by a read of register 0x00 into the high byte of `out`;
on the echoing device these leave the two bytes in registers 0xFF and 0x00 and deliver
the content of register 0x00 as the high byte, with the request and the read made for
both registers.  For every `reg` the second sub-write and the second read go to
`(reg + 1) % 256`, an 8-bit address. -/
theorem C18_register_address_wraps {σ : Type} (port : TwoWire σ)
    (address reg value out lowByte highByte : Nat) (w : World σ) (e : World EchoBus) :
    ((CH224A.mk address (some port)).writeRegister16 0xFF value w).2.calls =
      w.calls ++
        [Call.beginTransmission address, Call.write 0xFF, Call.write (value &&& 0xFF),
         Call.endTransmission true, Call.delay 50,
         Call.beginTransmission address, Call.write 0x00,
         Call.write ((value >>> 8) &&& 0xFF), Call.endTransmission true, Call.delay 50] ∧
    (let r1 := (CH224A.mk address (some port)).readRegister 0xFF lowByte w
     let r2 := (CH224A.mk address (some port)).readRegister 0x00 highByte r1.2.2
     (CH224A.mk address (some port)).readRegister16 0xFF out lowByte highByte w =
       (r1.1 && r2.1,
        if (r1.1 && r2.1) = true then ((r2.2.1 <<< 8) ||| r1.2.1) % 65536 else out,
        r2.2.2)) ∧
    (∃ t1 t2 : List Call,
      ((CH224A.mk address (some port)).readRegister16 0xFF out lowByte highByte w).2.2.calls =
        w.calls ++ [Call.beginTransmission address, Call.write 0xFF,
          Call.endTransmission false] ++ t1 ++
          [Call.beginTransmission address, Call.write 0x00,
           Call.endTransmission false] ++ t2 ∧
      (t1 = [] ∨ t1 = [Call.requestFrom address 1] ∨
        t1 = [Call.requestFrom address 1, Call.read]) ∧
      (t2 = [] ∨ t2 = [Call.requestFrom address 1] ∨
        t2 = [Call.requestFrom address 1, Call.read])) ∧
    ((CH224A.mk address (some echoWire)).writeRegister16 0xFF value e).2.bus.regs 0xFF =
      value &&& 0xFF ∧
    ((CH224A.mk address (some echoWire)).writeRegister16 0xFF value e).2.bus.regs 0x00 =
      (value >>> 8) &&& 0xFF ∧
    (CH224A.mk address (some echoWire)).readRegister16 0xFF out lowByte highByte e =
      (true,
       (((e.bus.regs 0x00 % 256) <<< 8) ||| (e.bus.regs 0xFF % 256)) % 65536,
       { bus := { regs := e.bus.regs, tx := [], pointer := 0x00, rx := [] },
         calls := e.calls ++
           [Call.beginTransmission address, Call.write 0xFF, Call.endTransmission false,
            Call.requestFrom address 1, Call.read,
            Call.beginTransmission address, Call.write 0x00,
            Call.endTransmission false, Call.requestFrom address 1, Call.read] }) ∧
    ((CH224A.mk address (some port)).writeRegister16 reg value w).2.calls =
      w.calls ++
        [Call.beginTransmission address, Call.write reg, Call.write (value &&& 0xFF),
         Call.endTransmission true, Call.delay 50,
         Call.beginTransmission address, Call.write ((reg + 1) % 256),
         Call.write ((value >>> 8) &&& 0xFF), Call.endTransmission true, Call.delay 50] ∧
    (let r1 := (CH224A.mk address (some port)).readRegister reg lowByte w
     let r2 := (CH224A.mk address (some port)).readRegister ((reg + 1) % 256) highByte
       r1.2.2
     (CH224A.mk address (some port)).readRegister16 reg out lowByte highByte w =
       (r1.1 && r2.1,
        if (r1.1 && r2.1) = true then ((r2.2.1 <<< 8) ||| r1.2.1) % 65536 else out,
        r2.2.2)) ∧
    (∃ t1 t2 : List Call,
      ((CH224A.mk address (some port)).readRegister16 reg out lowByte highByte w).2.2.calls =
        w.calls ++ [Call.beginTransmission address, Call.write reg,
          Call.endTransmission false] ++ t1 ++
          [Call.beginTransmission address, Call.write ((reg + 1) % 256),
           Call.endTransmission false] ++ t2 ∧
      (t1 = [] ∨ t1 = [Call.requestFrom address 1] ∨
        t1 = [Call.requestFrom address 1, Call.read]) ∧
      (t2 = [] ∨ t2 = [Call.requestFrom address 1] ∨
        t2 = [Call.requestFrom address 1, Call.read])) ∧
    (CH224A.mk address (some echoWire)).readRegister16 reg out lowByte highByte e =
      (true,
       (((e.bus.regs ((reg + 1) % 256) % 256) <<< 8) ||| (e.bus.regs reg % 256)) % 65536,
       { bus := { regs := e.bus.regs, tx := [], pointer := (reg + 1) % 256, rx := [] },
         calls := e.calls ++
           [Call.beginTransmission address, Call.write reg, Call.endTransmission false,
            Call.requestFrom address 1, Call.read,
            Call.beginTransmission address, Call.write ((reg + 1) % 256),
            Call.endTransmission false, Call.requestFrom address 1, Call.read] }) ∧
    (reg + 1) % 256 < 256 := by
  refine ⟨writeRegister16_bound port address 0xFF value w,
    readRegister16_bound_eq port address 0xFF out lowByte highByte w,
    readRegister16_bound port address 0xFF out lowByte highByte w, ?_, ?_,
    echoWire_readRegister16 address 0xFF out lowByte highByte e,
    writeRegister16_bound port address reg value w,
    readRegister16_bound_eq port address reg out lowByte highByte w,
    readRegister16_bound port address reg out lowByte highByte w,
    echoWire_readRegister16 address reg out lowByte highByte e,
    Nat.mod_lt _ (by decide)⟩
  · simp [CH224A.writeRegister16, echoWire_writeRegister]
  · simp [CH224A.writeRegister16, echoWire_writeRegister]

/-- Nothing added: the log extends itself. -/
theorem issuedTo_refl (a : Nat) (l : List Call) : issuedTo a l l :=
  ⟨[], by simp, by simp⟩

/-- Two extensions in a row make one. -/
theorem issuedTo_trans {a : Nat} {l1 l2 l3 : List Call} (h12 : issuedTo a l1 l2)
    (h23 : issuedTo a l2 l3) : issuedTo a l1 l3 := by
  obtain ⟨x, ex, hx⟩ := h12
  obtain ⟨y, ey, hy⟩ := h23
  refine ⟨x ++ y, by rw [ey, ex, List.append_assoc], ?_⟩
  intro c hc
  rcases List.mem_append.mp hc with h | h
  · exact hx c h
  · exact hy c h

/-- Extension by calls that all carry the address, or none. -/
theorem issuedTo_append (a : Nat) (l xs : List Call)
    (h : ∀ c ∈ xs, ∀ x : Nat, c.address = some x → x = a) : issuedTo a l (l ++ xs) :=
  ⟨xs, rfl, h⟩

/-- The calls of `isConnected` carry the address of the handle. -/
theorem isConnected_issuedTo {σ : Type} (self : CH224A σ) (w : World σ) :
    issuedTo self._i2cAddress w.calls (self.isConnected w).2.calls := by
  cases hp : self._i2cPort with
  | none => simp [CH224A.isConnected, hp, issuedTo_refl]
  | some p =>
    simp only [CH224A.isConnected, hp, World.beginTransmission, World.endTransmission,
      List.append_assoc]
    exact issuedTo_append _ _ _ (by simp [Call.address])

/-- The calls of `writeRegister` carry the address of the handle. -/
theorem writeRegister_issuedTo {σ : Type} (self : CH224A σ) (reg value : Nat) (w : World σ) :
    issuedTo self._i2cAddress w.calls (self.writeRegister reg value w).2.calls := by
  cases hp : self._i2cPort with
  | none => simp [CH224A.writeRegister, hp, issuedTo_refl]
  | some p =>
    simp only [CH224A.writeRegister, hp, World.beginTransmission, World.write,
      World.endTransmission, World.delay, List.append_assoc]
    exact issuedTo_append _ _ _ (by simp [Call.address])

/-- The calls of `readRegister` carry the address of the handle. -/
theorem readRegister_issuedTo {σ : Type} (self : CH224A σ) (reg value : Nat) (w : World σ) :
    issuedTo self._i2cAddress w.calls (self.readRegister reg value w).2.2.calls := by
  cases hp : self._i2cPort with
  | none => simp [CH224A.readRegister, hp, issuedTo_refl]
  | some p =>
    simp only [CH224A.readRegister, hp]
    split
    · simp only [World.beginTransmission, World.write, World.endTransmission,
        List.append_assoc]
      exact issuedTo_append _ _ _ (by simp [Call.address])
    · split
      · simp only [World.beginTransmission, World.write, World.endTransmission,
          World.requestFrom, World.read, List.append_assoc]
        exact issuedTo_append _ _ _ (by simp [Call.address])
      · simp only [World.beginTransmission, World.write, World.endTransmission,
          World.requestFrom, List.append_assoc]
        exact issuedTo_append _ _ _ (by simp [Call.address])

/-- The calls of `writeRegister16` carry the address of the handle. -/
theorem writeRegister16_issuedTo {σ : Type} (self : CH224A σ) (reg value : Nat)
    (w : World σ) :
    issuedTo self._i2cAddress w.calls (self.writeRegister16 reg value w).2.calls := by
  cases hp : self._i2cPort with
  | none => simp [CH224A.writeRegister16, hp, issuedTo_refl]
  | some p =>
    simp only [CH224A.writeRegister16, hp]
    exact issuedTo_trans (writeRegister_issuedTo self _ _ w) (writeRegister_issuedTo self _ _ _)

/-- The calls of `readRegister16` carry the address of the handle. -/
theorem readRegister16_issuedTo {σ : Type} (self : CH224A σ)
    (reg value lowByte highByte : Nat) (w : World σ) :
    issuedTo self._i2cAddress w.calls
      (self.readRegister16 reg value lowByte highByte w).2.2.calls := by
  cases hp : self._i2cPort with
  | none => simp [CH224A.readRegister16, hp, issuedTo_refl]
  | some p =>
    simp only [CH224A.readRegister16, hp]
    split <;>
    exact issuedTo_trans (readRegister_issuedTo self _ _ w) (readRegister_issuedTo self _ _ _)

/-- The calls of `setPPSVoltageRaw` carry the address of the handle. -/
theorem setPPSVoltageRaw_issuedTo {σ : Type} (self : CH224A σ) (voltage : Nat)
    (w : World σ) :
    issuedTo self._i2cAddress w.calls (self.setPPSVoltageRaw voltage w).2.calls :=
  issuedTo_trans (writeRegister_issuedTo self _ _ w) (writeRegister_issuedTo self _ _ _)

/-- The calls of `setAVSVoltageRaw` carry the address of the handle. -/
theorem setAVSVoltageRaw_issuedTo {σ : Type} (self : CH224A σ) (voltage : Nat)
    (w : World σ) :
    issuedTo self._i2cAddress w.calls (self.setAVSVoltageRaw voltage w).2.calls :=
  issuedTo_trans (writeRegister16_issuedTo self _ _ w) (writeRegister_issuedTo self _ _ _)

/-- The calls of any one public operation carry the address of the handle. -/
theorem Op.apply_issuedTo {σ : Type} (op : Op σ) (s : CH224A σ × World σ) :
    issuedTo s.1._i2cAddress s.2.calls (op.apply s).2.calls := by
  cases op with
  | begin wirePort =>
    exact isConnected_issuedTo (CH224A.mk s.1._i2cAddress (some wirePort)) s.2
  | isConnected => exact isConnected_issuedTo s.1 s.2
  | getI2CAddress => exact issuedTo_refl _ _
  | writeRegister reg value => exact writeRegister_issuedTo s.1 reg value s.2
  | writeRegister16 reg value => exact writeRegister16_issuedTo s.1 reg value s.2
  | readRegister reg value => exact readRegister_issuedTo s.1 reg value s.2
  | readRegister16 reg value lowByte highByte =>
    exact readRegister16_issuedTo s.1 reg value lowByte highByte s.2
  | setFixedVoltage mode => exact writeRegister_issuedTo s.1 _ _ s.2
  | setVoltage5V => exact writeRegister_issuedTo s.1 _ _ s.2
  | setVoltage9V => exact writeRegister_issuedTo s.1 _ _ s.2
  | setVoltage12V => exact writeRegister_issuedTo s.1 _ _ s.2
  | setVoltage15V => exact writeRegister_issuedTo s.1 _ _ s.2
  | setVoltage20V => exact writeRegister_issuedTo s.1 _ _ s.2
  | setVoltage28V => exact writeRegister_issuedTo s.1 _ _ s.2
  | setPPSVoltage voltage => exact setPPSVoltageRaw_issuedTo s.1 _ s.2
  | setPPSVoltageRaw voltage => exact setPPSVoltageRaw_issuedTo s.1 voltage s.2
  | setAVSVoltage voltage => exact setAVSVoltageRaw_issuedTo s.1 _ s.2
  | setAVSVoltageRaw voltage => exact setAVSVoltageRaw_issuedTo s.1 voltage s.2

/-- The calls of a sequence of public operations carry the address of the handle. -/
theorem Op.run_issuedTo {σ : Type} (ops : List (Op σ)) (s : CH224A σ × World σ) :
    issuedTo s.1._i2cAddress s.2.calls (Op.run ops s).2.calls := by
  induction ops generalizing s with
  | nil => exact issuedTo_refl _ _
  | cons op rest ih =>
    have h1 := Op.apply_issuedTo op s
    have h2 := ih (op.apply s)
    rw [Op.apply_address] at h2
    exact issuedTo_trans h1 h2

/-- C19: for a handle with address `a`, bound or not, the calls made by any finite
sequence of public operations with any arguments (a single operation on a bound handle
in particular) are added after the earlier ones, and every `beginTransmission` and every
`requestFrom` among them carries `a`. -/
theorem C19_calls_carry_handle_address {σ : Type} (a : Nat) (p : Option (TwoWire σ))
    (ops : List (Op σ)) (op : Op σ) (port : TwoWire σ) (w : World σ) :
    (∃ added : List Call,
      (Op.run ops (CH224A.mk a p, w)).2.calls = w.calls ++ added ∧
      ∀ c ∈ added,
        (∀ x : Nat, c = Call.beginTransmission x → x = a) ∧
        (∀ x n : Nat, c = Call.requestFrom x n → x = a)) ∧
    (∃ added : List Call,
      (op.apply (CH224A.mk a (some port), w)).2.calls = w.calls ++ added ∧
      ∀ c ∈ added,
        (∀ x : Nat, c = Call.beginTransmission x → x = a) ∧
        (∀ x n : Nat, c = Call.requestFrom x n → x = a)) := by
  have key : ∀ after : List Call, issuedTo a w.calls after →
      ∃ added : List Call, after = w.calls ++ added ∧
        ∀ c ∈ added,
          (∀ x : Nat, c = Call.beginTransmission x → x = a) ∧
          (∀ x n : Nat, c = Call.requestFrom x n → x = a) := by
    rintro after ⟨added, e, h⟩
    refine ⟨added, e, fun c hc => ⟨?_, ?_⟩⟩
    · intro x hx
      exact h c hc x (by rw [hx]; rfl)
    · intro x n hx
      exact h c hc x (by rw [hx]; rfl)
  exact ⟨key _ (Op.run_issuedTo ops (CH224A.mk a p, w)),
    key _ (Op.apply_issuedTo op (CH224A.mk a (some port), w))⟩

/-- C20: on a bound handle `readRegister16` always makes the address phase of `reg` and
then the address phase of the next register address, each followed by at most its request
and its read, whatever the first read returned; it returns the conjunction of the two
results, so it returns false when the read of `reg` failed, whatever the second read
returns. -/
theorem C20_readRegister16_no_short_circuit {σ : Type} (port : TwoWire σ)
    (address reg value lowByte highByte : Nat) (w : World σ) :
    (∃ t1 t2 : List Call,
      ((CH224A.mk address (some port)).readRegister16 reg value lowByte highByte w).2.2.calls =
        w.calls ++ [Call.beginTransmission address, Call.write reg,
          Call.endTransmission false] ++ t1 ++
          [Call.beginTransmission address, Call.write ((reg + 1) % 256),
           Call.endTransmission false] ++ t2 ∧
      (t1 = [] ∨ t1 = [Call.requestFrom address 1] ∨
        t1 = [Call.requestFrom address 1, Call.read]) ∧
      (t2 = [] ∨ t2 = [Call.requestFrom address 1] ∨
        t2 = [Call.requestFrom address 1, Call.read])) ∧
    (((CH224A.mk address (some port)).readRegister reg lowByte w).1 = false →
      ((CH224A.mk address (some port)).readRegister16 reg value lowByte highByte w).1 =
        false) ∧
    ((CH224A.mk address (some port)).readRegister16 reg value lowByte highByte w).1 =
      (((CH224A.mk address (some port)).readRegister reg lowByte w).1 &&
       ((CH224A.mk address (some port)).readRegister ((reg + 1) % 256) highByte
        ((CH224A.mk address (some port)).readRegister reg lowByte w).2.2).1) := by
  refine ⟨readRegister16_bound port address reg value lowByte highByte w, ?_,
    readRegister16_bound_result port address reg value lowByte highByte w⟩
  intro h
  rw [readRegister16_bound_result, h]
  rfl

/-- C20, instance: the address phase of register 0x51 is refused with code 2, the read of
register 0x52 succeeds with 0x34; both address phases are made, the call returns false and
the output keeps 0x1234. -/
theorem C20_witness :
    ((CH224A.mk 0x22 (some scriptWire)).readRegister 0x51 0
      { bus := { codes := [2, 0], counts := [1], data := [0x34] }, calls := [] }).1 = false ∧
    ((CH224A.mk 0x22 (some scriptWire)).readRegister 0x52 0
      ((CH224A.mk 0x22 (some scriptWire)).readRegister 0x51 0
        { bus := { codes := [2, 0], counts := [1], data := [0x34] }, calls := [] }).2.2).1
      = true ∧
    ((CH224A.mk 0x22 (some scriptWire)).readRegister16 0x51 0x1234 0 0
      { bus := { codes := [2, 0], counts := [1], data := [0x34] }, calls := [] }).2.2.calls =
      [Call.beginTransmission 0x22, Call.write 0x51, Call.endTransmission false,
       Call.beginTransmission 0x22, Call.write 0x52, Call.endTransmission false,
       Call.requestFrom 0x22 1, Call.read] ∧
    ((CH224A.mk 0x22 (some scriptWire)).readRegister16 0x51 0x1234 0 0
      { bus := { codes := [2, 0], counts := [1], data := [0x34] }, calls := [] }).1 = false :=
  ⟨by decide, by decide, by decide,
   (C20_readRegister16_no_short_circuit scriptWire 0x22 0x51 0x1234 0 0
      { bus := { codes := [2, 0], counts := [1], data := [0x34] }, calls := [] }).2.1
      (by decide)⟩
